import Mathlib

/-!
Verification development for the rhythm-game engine in `src/main.ts`.

The program is TypeScript running on JS numbers (IEEE doubles).  We embed the
numeric values that actually flow through the reducer as an extended-rational
type `JSNum`: a finite rational, `+Infinity`, `-Infinity`, or `NaN`, with the
arithmetic and comparison semantics of JS on those values (NaN propagates and
compares false; `x / 0 = ±Infinity` for finite nonzero `x`; `x - x = +0` for
finite `x`, so the only division by an exact zero the program can perform,
`STROKE_LEN / (end - elapsed)` with `end = elapsed`, yields `+Infinity`, as in
JS).  Rounding of finite doubles is not modelled; every claim below concerns
signs, orderings, exact identities on small values, or the special values, all
of which are rounding-independent here.

String-typed numeric fields of the source (`pitch`, `end`) are carried as the
`JSNum` their every use site produces via `Number(...)`; a non-numeric source
string is the `nan` value (`Number` of a non-numeric string is `NaN` and is
total).  `start`, `velocity`, `user_played`, `instrument_name` are never used
numerically by the live code and stay strings.
-/

/-- Extended rational modelling a JS number (IEEE double without rounding). -/
inductive JSNum where
  | num (q : ℚ)
  | posInf
  | negInf
  | nan
deriving DecidableEq, Repr

namespace JSNum

/-- JS `+` on numbers. -/
def add : JSNum → JSNum → JSNum
  | num a, num b => num (a + b)
  | num _, posInf => posInf
  | num _, negInf => negInf
  | posInf, num _ => posInf
  | negInf, num _ => negInf
  | posInf, posInf => posInf
  | negInf, negInf => negInf
  | _, _ => nan

/-- JS `-` on numbers. -/
def sub : JSNum → JSNum → JSNum
  | num a, num b => num (a - b)
  | num _, posInf => negInf
  | num _, negInf => posInf
  | posInf, num _ => posInf
  | negInf, num _ => negInf
  | posInf, negInf => posInf
  | negInf, posInf => negInf
  | _, _ => nan

/-- JS `*` on numbers. -/
def mul : JSNum → JSNum → JSNum
  | num a, num b => num (a * b)
  | num a, posInf => if a = 0 then nan else if 0 < a then posInf else negInf
  | num a, negInf => if a = 0 then nan else if 0 < a then negInf else posInf
  | posInf, num b => if b = 0 then nan else if 0 < b then posInf else negInf
  | negInf, num b => if b = 0 then nan else if 0 < b then negInf else posInf
  | posInf, posInf => posInf
  | posInf, negInf => negInf
  | negInf, posInf => negInf
  | negInf, negInf => posInf
  | _, _ => nan

/-- JS `/` on numbers.  A finite nonzero value divided by an exact zero is a
signed infinity; in the program the zero denominator arises only as
`x - x = +0` for finite `x`, so the positive branch is the faithful one. -/
def div : JSNum → JSNum → JSNum
  | num a, num b =>
      if b = 0 then (if a = 0 then nan else if 0 < a then posInf else negInf)
      else num (a / b)
  | num _, posInf => num 0
  | num _, negInf => num 0
  | posInf, num b => if 0 ≤ b then posInf else negInf
  | negInf, num b => if 0 ≤ b then negInf else posInf
  | _, _ => nan

/-- JS `>` on numbers: any comparison involving NaN is false. -/
def gt : JSNum → JSNum → Bool
  | num a, num b => decide (b < a)
  | num _, posInf => false
  | num _, negInf => true
  | posInf, num _ => true
  | posInf, negInf => true
  | posInf, posInf => false
  | negInf, num _ => false
  | negInf, posInf => false
  | negInf, negInf => false
  | _, _ => false

/-- Truncation toward zero, as JS `%` uses for its implicit quotient. -/
def truncQ (q : ℚ) : ℤ := if 0 ≤ q then ⌊q⌋ else ⌈q⌉

/-- JS `%` (remainder): sign of the dividend; NaN when the divisor is zero or
either operand is NaN or the dividend is infinite; a finite dividend with an
infinite divisor is returned unchanged. -/
def mod : JSNum → JSNum → JSNum
  | num a, num n => if n = 0 then nan else num (a - n * truncQ (a / n))
  | num a, posInf => num a
  | num a, negInf => num a
  | _, _ => nan

end JSNum

/-- Constant `STROKE_LEN = 350` from the source. -/
def STROKE_LEN : ℚ := 350

/-- The immutable 2D vector class `Vec` (class Vec, src/main.ts). -/
structure Vec where
  x : JSNum := JSNum.num 0
  y : JSNum := JSNum.num 0
deriving DecidableEq, Repr

/-- Method `Vec.add`: componentwise JS addition. -/
def Vec.add (a b : Vec) : Vec := ⟨a.x.add b.x, a.y.add b.y⟩

/-- `pitchToColor` (src/main.ts): `switch (Number(pitch) % 4)` with cases 0, 1,
2 and a default.  The input is the `Number(...)` value of the pitch string (a
non-numeric string is `JSNum.nan`, which matches no case since `NaN === k` is
false in JS, as is any remainder other than 0, 1, 2). -/
def pitchToColor (pitch : JSNum) : String :=
  if JSNum.mod pitch (JSNum.num 4) = JSNum.num 0 then "url(#greenGradient)"
  else if JSNum.mod pitch (JSNum.num 4) = JSNum.num 1 then "url(#redGradient)"
  else if JSNum.mod pitch (JSNum.num 4) = JSNum.num 2 then "url(#blueGradient)"
  else "url(#yellowGradient)"

/-- The `MusicNote` record (src/main.ts).  `pitch` and `end` are stored as
strings in the source but every use applies `Number(...)`; they are carried
here as that numeric value (`String(Number(x))` round-trips). -/
structure MusicNote where
  id : ℕ
  viewType : String
  user_played : String
  instrument_name : String
  velocity : String
  pitch : JSNum
  start : String
  «end» : JSNum
  pos : Vec
  color : String
deriving DecidableEq, Repr

/-- The `State` record (src/main.ts).  `time`, `score`, `objCount` only ever
hold finite numbers (the tick counter and the constant 0), so they are plain
rationals. -/
structure State where
  gameEnd : Bool
  notes : List MusicNote
  time : ℚ
  score : ℚ
  objCount : ℚ
  exit : List MusicNote
deriving DecidableEq, Repr

/-- The `Tick` action class: carries the absolute elapsed value emitted by the
interval timer (always a finite number). -/
structure Tick where
  elapsed : ℚ
deriving DecidableEq, Repr

/-- Local predicate `expired` inside `Tick.apply`:
`(n: MusicNote) => Number(n.pos.y) > STROKE_LEN`. -/
def expired (n : MusicNote) : Bool := JSNum.gt n.pos.y (JSNum.num STROKE_LEN)

/-- `Tick.moveNote` (src/main.ts): adds `new Vec(0, STROKE_LEN / (Number(note.end) - elapsed))`
to the note's position, all other fields spread unchanged. -/
def Tick.moveNote (elapsed : ℚ) (note : MusicNote) : MusicNote :=
  { note with
    pos := note.pos.add ⟨JSNum.num 0,
      JSNum.div (JSNum.num STROKE_LEN) (JSNum.sub note.«end» (JSNum.num elapsed))⟩ }

/-- `Tick.apply` (src/main.ts): splits `s.notes` by `expired`, moves the
non-expired notes, rebuilds `exit` from this tick's expired notes, and stamps
`time` with the tick's elapsed value; all other fields spread unchanged. -/
def Tick.apply (t : Tick) (s : State) : State :=
  let expiredNotes := s.notes.filter expired
  let activeNotes := s.notes.filter (fun n => !expired n)
  { s with
    notes := activeNotes.map (Tick.moveNote t.elapsed),
    exit := expiredNotes,
    time := t.elapsed }

/-- The `Action` interface of the source (named `GameAction` here because
Mathlib already declares `Action`).  `Tick` is the only implementation in the
source (the key streams are declared but never mapped into actions). -/
inductive GameAction where
  | tick (t : Tick)
deriving DecidableEq, Repr

/-- Dispatch of `action.apply(s)` over the implementations of the interface. -/
def GameAction.apply : GameAction → State → State
  | .tick t, s => t.apply s

/-- `reduceState` (src/main.ts): `(s, action) => action.apply(s)`. -/
def reduceState (s : State) (action : GameAction) : State := action.apply s

/-- A raw CSV line after `line.split(",")` destructuring into the six named
columns.  `pitch` and `end` are carried as their `Number(...)` parses (see the
file header); the other columns stay strings. -/
structure RawLine where
  user_played : String
  instrument_name : String
  velocity : String
  pitch : JSNum
  start : String
  «end» : JSNum
deriving DecidableEq, Repr

/-- The loader `process` (src/main.ts): drops the header row (`slice(1)`),
then maps each line with its 0-based index to a `MusicNote` with `id = index + 1`,
`end` multiplied by 1000 (seconds to milliseconds), initial position
`((Number(pitch) % 4 + 1) * 20, 0)` and colour from `pitchToColor`.  The
source wraps each note in `of(note).pipe(delay(...))`; the wrapper delays
emission but carries exactly this record, so the model returns the notes. -/
def process (lines : List RawLine) : List MusicNote :=
  (lines.drop 1).enum.map (fun p =>
    { id := p.1 + 1,
      viewType := "note",
      user_played := p.2.user_played,
      instrument_name := p.2.instrument_name,
      velocity := p.2.velocity,
      pitch := p.2.pitch,
      start := p.2.start,
      «end» := JSNum.mul p.2.«end» (JSNum.num 1000),
      pos := ⟨JSNum.mul (JSNum.add (JSNum.mod p.2.pitch (JSNum.num 4)) (JSNum.num 1)) (JSNum.num 20),
             JSNum.num 0⟩,
      color := pitchToColor p.2.pitch })

/-- Modelled from the spec: a live note entity for the key-press judgement of
spec §4.2, which is not implemented in the source (the `Action` interface and
the key event streams exist, but no key-press action is ever constructed or
merged into the action stream).  Fields follow the spec's data model:
`startTimeMs`, `durationMs` (hit instant `startTimeMs + durationMs`), the
note's lane, and whether the entity is in the `active` phase. -/
structure SpecLiveNote where
  id : ℕ
  lane : ℕ
  startTimeMs : ℚ
  durationMs : ℚ
  active : Bool
deriving DecidableEq, Repr

/-- Modelled from the spec: the hit window
`[startTimeMs + durationMs - eps, startTimeMs + durationMs + eps]` of spec
§4.2 contains the press time `atMs`. -/
def inHitWindow (eps atMs : ℚ) (n : SpecLiveNote) : Bool :=
  decide (n.startTimeMs + n.durationMs - eps ≤ atMs) &&
  decide (atMs ≤ n.startTimeMs + n.durationMs + eps)

/-- Modelled from the spec: `KeyPress{lane, atMs}` judgement (spec §4.2),
absent from the source.  Finds the earliest-scheduled `active` entity whose
lane matches and whose hit window contains `atMs`; `some` of that entity is a
hit, `none` is a miss. -/
def judgeKeyPress (eps : ℚ) (lane : ℕ) (atMs : ℚ) (liveNotes : List SpecLiveNote) :
    Option SpecLiveNote :=
  (liveNotes.filter (fun n => n.active && n.lane == lane && inHitWindow eps atMs n)).foldl
    (fun acc n =>
      match acc with
      | none => some n
      | some m => if n.startTimeMs < m.startTimeMs then some n else some m)
    none

/-- A sample note used by concrete witnesses and counterexamples: lane column
from the pitch, position `(20, y)`, numeric end value `e`. -/
def mkNote (pitch e y : JSNum) : MusicNote :=
  { id := 1,
    viewType := "note",
    user_played := "False",
    instrument_name := "piano",
    velocity := "1",
    pitch := pitch,
    start := "0",
    «end» := e,
    pos := ⟨JSNum.num 20, y⟩,
    color := pitchToColor pitch }

/-- A sample state holding the given notes, used by concrete witnesses. -/
def mkState (notes : List MusicNote) : State :=
  { gameEnd := false,
    notes := notes,
    time := 0,
    score := 0,
    objCount := 0,
    exit := [] }

/-- Helper: adding the JS number 0 on the right is the identity (JS addition
with `+0`). -/
theorem JSNum.add_zero (a : JSNum) : a.add (JSNum.num 0) = a := by
  cases a <;> simp [JSNum.add]

/-- Helper: indexing after dropping the head line. -/
theorem List.getElem?_drop_one (l : List α) (i : ℕ) : (l.drop 1)[i]? = l[i + 1]? := by
  cases l <;> simp

/-- C1: `Tick.apply` partitions the incoming state's notes exactly.  The ids
of the result's `notes` and `exit` together are a permutation of the ids of
the incoming notes (no note lost or duplicated); every incoming note lands in
`exit` when expired and, moved, in `notes` when not; every note of the
result's `exit` is an expired note of the incoming state; and `exit` is
rebuilt from this tick's expiries alone — it does not depend on the previous
state's `exit`. -/
theorem tick_partitions_notes (t : Tick) (s : State) :
    ((((t.apply s).notes.map MusicNote.id) ++ ((t.apply s).exit.map MusicNote.id)).Perm
      (s.notes.map MusicNote.id))
    ∧ (∀ n ∈ s.notes,
        (expired n = true ∧ n ∈ (t.apply s).exit) ∨
        (expired n = false ∧ Tick.moveNote t.elapsed n ∈ (t.apply s).notes))
    ∧ (∀ n ∈ (t.apply s).exit, expired n = true ∧ n ∈ s.notes)
    ∧ (∀ prev : List MusicNote, (t.apply { s with exit := prev }).exit = (t.apply s).exit) := by
  refine ⟨?_, ?_, ?_, fun prev => rfl⟩
  · have hids : (t.apply s).notes.map MusicNote.id =
        (s.notes.filter (fun n => !expired n)).map MusicNote.id := by
      simp only [Tick.apply, List.map_map]
      rfl
    have hexit : (t.apply s).exit = s.notes.filter expired := rfl
    rw [hids, hexit, ← List.map_append]
    refine List.Perm.map MusicNote.id ?_
    have base := List.filter_append_perm (fun n => !expired n) s.notes
    simpa [Bool.not_not] using base
  · intro n hn
    by_cases hexp : expired n
    · exact Or.inl ⟨hexp, by simp [Tick.apply, List.mem_filter, hn, hexp]⟩
    · refine Or.inr ⟨by simpa using hexp, ?_⟩
      simp only [Tick.apply, List.mem_map]
      exact ⟨n, by simp [List.mem_filter, hn, hexp], rfl⟩
  · intro n hn
    have : n ∈ s.notes.filter expired := hn
    simpa [List.mem_filter, and_comm] using this

/-- C2 counterexample: the claim "position strictly progresses toward the hit
line (y strictly increases) and never regresses" is false as stated.  The
live (non-expired) note below with numeric end 0 and y = 0, moved by a tick
with elapsed 1, gets the increment `350 / (0 - 1) = -350`: its y drops to
-350 and the program's own comparison confirms the moved y is not above the
old one. -/
theorem moveNote_can_regress_ce :
    expired (mkNote (JSNum.num 0) (JSNum.num 0) (JSNum.num 0)) = false ∧
    (mkNote (JSNum.num 0) (JSNum.num 0) (JSNum.num 0)).pos.y = JSNum.num 0 ∧
    (Tick.moveNote 1 (mkNote (JSNum.num 0) (JSNum.num 0) (JSNum.num 0))).pos.y =
      JSNum.num (-350) ∧
    JSNum.gt (Tick.moveNote 1 (mkNote (JSNum.num 0) (JSNum.num 0) (JSNum.num 0))).pos.y
      (mkNote (JSNum.num 0) (JSNum.num 0) (JSNum.num 0)).pos.y = false := by
  refine ⟨?_, rfl, ?_, ?_⟩
  · simp [expired, mkNote, JSNum.gt, STROKE_LEN]
  · simp [Tick.moveNote, mkNote, Vec.add, JSNum.add, JSNum.sub, JSNum.div, STROKE_LEN]
    norm_num
  · simp [Tick.moveNote, mkNote, Vec.add, JSNum.add, JSNum.sub, JSNum.div, JSNum.gt, STROKE_LEN]

/-- C2 (amended): for a note with finite numeric end `d` and finite y, a tick
whose elapsed value is strictly below `d` strictly increases y (the increment
`350 / (d - t)` is positive).  For elapsed values past the end the increment
is negative and the position regresses, which is what the counterexample
exhibits. -/
theorem moveNote_increases_before_end (n : MusicNote) (t d y0 : ℚ)
    (he : n.«end» = JSNum.num d) (hy : n.pos.y = JSNum.num y0) (ht : t < d) :
    ∃ y1 : ℚ, (Tick.moveNote t n).pos.y = JSNum.num y1 ∧ y0 < y1 := by
  have hdt : ¬(d - t = 0) := ne_of_gt (sub_pos.mpr ht)
  refine ⟨y0 + STROKE_LEN / (d - t), ?_, ?_⟩
  · simp [Tick.moveNote, Vec.add, he, hy, JSNum.sub, JSNum.div, JSNum.add, hdt]
  · have hpos : 0 < STROKE_LEN / (d - t) :=
      div_pos (by norm_num [STROKE_LEN]) (sub_pos.mpr ht)
    linarith

/-- C2 witness: the amended theorem applied to a concrete note (end 10, y 0)
and the tick with elapsed 0. -/
theorem moveNote_increases_before_end_witness :
    ∃ y1 : ℚ,
      (Tick.moveNote 0 (mkNote (JSNum.num 0) (JSNum.num 10) (JSNum.num 0))).pos.y =
        JSNum.num y1 ∧ 0 < y1 :=
  moveNote_increases_before_end (mkNote (JSNum.num 0) (JSNum.num 10) (JSNum.num 0))
    0 10 0 rfl rfl (by norm_num)

/-- C3 counterexample: moving a note twice with the same elapsed value does
not equal moving it once — replaying an already-seen absolute elapsed time
moves the note again.  With end 2, y 0 and elapsed 0 the increment is
`350 / 2 = 175`: one application puts y at 175, the second pushes it to
350. -/
theorem moveNote_not_idempotent_ce :
    (Tick.moveNote 0 (mkNote (JSNum.num 0) (JSNum.num 2) (JSNum.num 0))).pos.y =
      JSNum.num 175 ∧
    (Tick.moveNote 0 (Tick.moveNote 0 (mkNote (JSNum.num 0) (JSNum.num 2) (JSNum.num 0)))).pos.y =
      JSNum.num 350 ∧
    Tick.moveNote 0 (Tick.moveNote 0 (mkNote (JSNum.num 0) (JSNum.num 2) (JSNum.num 0))) ≠
      Tick.moveNote 0 (mkNote (JSNum.num 0) (JSNum.num 2) (JSNum.num 0)) := by
  refine ⟨?_, ?_, ?_⟩
  · simp [Tick.moveNote, mkNote, Vec.add, JSNum.add, JSNum.sub, JSNum.div, STROKE_LEN]
    norm_num
  · simp [Tick.moveNote, mkNote, Vec.add, JSNum.add, JSNum.sub, JSNum.div, STROKE_LEN]
  · intro hcontra
    have h1 : (Tick.moveNote 0 (Tick.moveNote 0
        (mkNote (JSNum.num 0) (JSNum.num 2) (JSNum.num 0)))).pos.y =
        (Tick.moveNote 0 (mkNote (JSNum.num 0) (JSNum.num 2) (JSNum.num 0))).pos.y := by
      rw [hcontra]
    simp [Tick.moveNote, mkNote, Vec.add, JSNum.add, JSNum.sub, JSNum.div, STROKE_LEN] at h1
    norm_num at h1

/-- C3 (amended): `Tick.moveNote` is incremental, not idempotent.  For a note
with finite numeric end `d`, finite y, and elapsed `t ≠ d`, each application
adds `350 / (d - t)` to y again: applying the movement twice with the same
elapsed value shifts y by exactly twice the per-tick increment. -/
theorem moveNote_adds_increment_each_time (n : MusicNote) (t d y0 : ℚ)
    (he : n.«end» = JSNum.num d) (hy : n.pos.y = JSNum.num y0) (hne : d ≠ t) :
    (Tick.moveNote t n).pos.y = JSNum.num (y0 + STROKE_LEN / (d - t)) ∧
    (Tick.moveNote t (Tick.moveNote t n)).pos.y =
      JSNum.num (y0 + STROKE_LEN / (d - t) + STROKE_LEN / (d - t)) := by
  have hdt : ¬(d - t = 0) := sub_ne_zero.mpr hne
  constructor
  · simp [Tick.moveNote, Vec.add, he, hy, JSNum.sub, JSNum.div, JSNum.add, hdt]
  · simp [Tick.moveNote, Vec.add, he, hy, JSNum.sub, JSNum.div, JSNum.add, hdt]

/-- C3 witness: the amended theorem applied to a concrete note (end 2, y 0)
and elapsed 0. -/
theorem moveNote_adds_increment_each_time_witness :
    (Tick.moveNote 0 (mkNote (JSNum.num 0) (JSNum.num 2) (JSNum.num 0))).pos.y =
      JSNum.num (0 + STROKE_LEN / (2 - 0)) ∧
    (Tick.moveNote 0 (Tick.moveNote 0 (mkNote (JSNum.num 0) (JSNum.num 2) (JSNum.num 0)))).pos.y =
      JSNum.num (0 + STROKE_LEN / (2 - 0) + STROKE_LEN / (2 - 0)) :=
  moveNote_adds_increment_each_time (mkNote (JSNum.num 0) (JSNum.num 2) (JSNum.num 0))
    0 2 0 rfl rfl (by norm_num)

/-- C4: a note whose scheduled end equals the current tick's elapsed value
(zero remaining duration) never raises a division error — the JS quotient
`350 / 0` is `+Infinity`, so the moved note's y is `+Infinity` — and the note
is expired on the very next tick: whatever that tick's elapsed value, the
note is in its `exit`. -/
theorem zero_duration_expired_next_tick (s : State) (e y0 : ℚ) (n : MusicNote) (t2 : Tick)
    (hn : n ∈ s.notes) (he : n.«end» = JSNum.num e) (hy : n.pos.y = JSNum.num y0)
    (hlive : y0 ≤ STROKE_LEN) :
    Tick.moveNote e n ∈ ((Tick.mk e).apply s).notes ∧
    (Tick.moveNote e n).pos.y = JSNum.posInf ∧
    Tick.moveNote e n ∈ (t2.apply ((Tick.mk e).apply s)).exit := by
  have hns : ¬((350 : ℚ) < y0) := not_lt.mpr (by simpa [STROKE_LEN] using hlive)
  have hexp : expired n = false := by
    simp [expired, JSNum.gt, hy, STROKE_LEN, hns]
  have hmem : Tick.moveNote e n ∈ ((Tick.mk e).apply s).notes := by
    simp only [Tick.apply, List.mem_map]
    exact ⟨n, by simp [List.mem_filter, hn, hexp], rfl⟩
  have hy' : (Tick.moveNote e n).pos.y = JSNum.posInf := by
    simp [Tick.moveNote, Vec.add, he, hy, JSNum.sub, JSNum.div, JSNum.add, STROKE_LEN]
  have hexp2 : expired (Tick.moveNote e n) = true := by
    simp [expired, hy', JSNum.gt]
  refine ⟨hmem, hy', ?_⟩
  show Tick.moveNote e n ∈ (((Tick.mk e).apply s).notes.filter expired)
  simp [List.mem_filter, hmem, hexp2]

/-- C4 witness: the theorem applied to a concrete state holding one note with
end 5 and y 0, ticked at elapsed 5 and then at elapsed 6. -/
theorem zero_duration_expired_next_tick_witness :
    Tick.moveNote 5 (mkNote (JSNum.num 0) (JSNum.num 5) (JSNum.num 0)) ∈
      ((Tick.mk 5).apply (mkState [mkNote (JSNum.num 0) (JSNum.num 5) (JSNum.num 0)])).notes ∧
    (Tick.moveNote 5 (mkNote (JSNum.num 0) (JSNum.num 5) (JSNum.num 0))).pos.y = JSNum.posInf ∧
    Tick.moveNote 5 (mkNote (JSNum.num 0) (JSNum.num 5) (JSNum.num 0)) ∈
      ((Tick.mk 6).apply
        ((Tick.mk 5).apply (mkState [mkNote (JSNum.num 0) (JSNum.num 5) (JSNum.num 0)]))).exit :=
  zero_duration_expired_next_tick
    (mkState [mkNote (JSNum.num 0) (JSNum.num 5) (JSNum.num 0)]) 5 0
    (mkNote (JSNum.num 0) (JSNum.num 5) (JSNum.num 0)) (Tick.mk 6)
    (by simp [mkState]) rfl rfl (by norm_num [STROKE_LEN])

/-- C5: folding `reduceState` over an action sequence is deterministic — two
runs from equal initial states over equal action sequences produce equal
final states.  `reduceState` is a pure function of the state and the action
(the only action implementation, `Tick.apply`, reads nothing but its
arguments), so the fold is replayable. -/
theorem reduce_fold_deterministic (s₁ s₂ : State) (l₁ l₂ : List GameAction)
    (hs : s₁ = s₂) (hl : l₁ = l₂) :
    List.foldl reduceState s₁ l₁ = List.foldl reduceState s₂ l₂ := by
  rw [hs, hl]

/-- C5 witness: two replays of a concrete two-tick sequence from a concrete
initial state agree. -/
theorem reduce_fold_deterministic_witness :
    List.foldl reduceState (mkState []) [GameAction.tick ⟨1⟩, GameAction.tick ⟨2⟩] =
    List.foldl reduceState (mkState []) [GameAction.tick ⟨1⟩, GameAction.tick ⟨2⟩] :=
  reduce_fold_deterministic _ _ _ _ rfl rfl

/-- C6: with a note of `startTimeMs = 1000`, `durationMs = 2000` (hit instant
3000) and hit-window half-width 50, a key-press on its lane at 3040 judges as
a hit (the note is selected) and at 3100 as a miss (no note selected).  The
judgement itself is absent from the source and is modelled from the spec (see
`judgeKeyPress`). -/
theorem judge_hit_window_example :
    judgeKeyPress 50 0 3040 [⟨1, 0, 1000, 2000, true⟩] = some ⟨1, 0, 1000, 2000, true⟩ ∧
    judgeKeyPress 50 0 3100 [⟨1, 0, 1000, 2000, true⟩] = none := by
  constructor <;> norm_num [judgeKeyPress, inHitWindow, List.filter, List.foldl]

/-- C7: a tick changes only `time`, `notes` and `exit`: the `score`,
`gameEnd` and `objCount` fields of the state are untouched by `Tick.apply`
(and `time` becomes exactly the tick's elapsed value). -/
theorem tick_preserves_frame (t : Tick) (s : State) :
    (t.apply s).score = s.score ∧ (t.apply s).gameEnd = s.gameEnd ∧
    (t.apply s).objCount = s.objCount ∧ (t.apply s).time = t.elapsed :=
  ⟨rfl, rfl, rfl, rfl⟩

/-- C8: the loader skips the header row (output length is one less than the
input), the note produced from input line `i + 1` sits at output index `i`
with the 1-based id `i + 1`, and its stored end value is the parsed numeric
end of the line multiplied by 1000 (seconds to milliseconds). -/
theorem process_contract (lines : List RawLine) (i : ℕ) (e : RawLine)
    (h : lines[i + 1]? = some e) :
    (process lines).length = lines.length - 1 ∧
    ∃ note : MusicNote, (process lines)[i]? = some note ∧ note.id = i + 1 ∧
      note.«end» = JSNum.mul e.«end» (JSNum.num 1000) ∧
      (∀ q : ℚ, e.«end» = JSNum.num q → note.«end» = JSNum.num (q * 1000)) := by
  constructor
  · simp [process]
  · have hd : (lines.drop 1)[i]? = some e := by
      rw [List.getElem?_drop_one]; exact h
    have hp : (process lines)[i]? = some
        { id := i + 1, viewType := "note", user_played := e.user_played,
          instrument_name := e.instrument_name, velocity := e.velocity,
          pitch := e.pitch, start := e.start,
          «end» := JSNum.mul e.«end» (JSNum.num 1000),
          pos := ⟨JSNum.mul (JSNum.add (JSNum.mod e.pitch (JSNum.num 4)) (JSNum.num 1))
                   (JSNum.num 20), JSNum.num 0⟩,
          color := pitchToColor e.pitch } := by
      simp [process, List.enum, List.getElem?_enumFrom, hd]
      exact ⟨e, h, rfl, rfl, rfl, rfl, rfl, rfl, rfl, rfl⟩
    exact ⟨_, hp, rfl, rfl, fun q hq => by rw [hq]; simp [JSNum.mul]⟩

/-- C8 witness: the theorem applied to a concrete two-line chart (header plus
one data line with numeric end 2): the single produced note has id 1 and
stored end 2000. -/
theorem process_contract_witness :
    (process [⟨"h", "h", "h", JSNum.num 0, "h", JSNum.num 0⟩,
              ⟨"False", "piano", "1", JSNum.num 3, "0", JSNum.num 2⟩]).length = 2 - 1 ∧
    ∃ note : MusicNote,
      (process [⟨"h", "h", "h", JSNum.num 0, "h", JSNum.num 0⟩,
                ⟨"False", "piano", "1", JSNum.num 3, "0", JSNum.num 2⟩])[0]? = some note ∧
      note.id = 0 + 1 ∧
      note.«end» = JSNum.mul (JSNum.num 2) (JSNum.num 1000) ∧
      (∀ q : ℚ, (JSNum.num 2 : JSNum) = JSNum.num q → note.«end» = JSNum.num (q * 1000)) := by
  have := process_contract
    [⟨"h", "h", "h", JSNum.num 0, "h", JSNum.num 0⟩,
     ⟨"False", "piano", "1", JSNum.num 3, "0", JSNum.num 2⟩] 0
    ⟨"False", "piano", "1", JSNum.num 3, "0", JSNum.num 2⟩ rfl
  simpa using this

/-- C9: `Tick.moveNote` changes only the y-coordinate of the note's position:
the x-coordinate (the lane column) and every other field — id, pitch,
instrument, start, end, colour, view type, user_played, velocity — are
unchanged, so a note never changes lane while falling. -/
theorem moveNote_changes_only_y (e : ℚ) (n : MusicNote) :
    (Tick.moveNote e n).pos.x = n.pos.x ∧ (Tick.moveNote e n).id = n.id ∧
    (Tick.moveNote e n).pitch = n.pitch ∧
    (Tick.moveNote e n).instrument_name = n.instrument_name ∧
    (Tick.moveNote e n).start = n.start ∧ (Tick.moveNote e n).«end» = n.«end» ∧
    (Tick.moveNote e n).color = n.color ∧ (Tick.moveNote e n).viewType = n.viewType ∧
    (Tick.moveNote e n).user_played = n.user_played ∧
    (Tick.moveNote e n).velocity = n.velocity :=
  ⟨JSNum.add_zero n.pos.x, rfl, rfl, rfl, rfl, rfl, rfl, rfl, rfl, rfl⟩

/-- C10: `pitchToColor` is total and depends only on the JS remainder of the
pitch by 4: every input yields one of the four gradient strings, inputs with
the same remainder get the same colour, and any input whose remainder is not
0, 1 or 2 — including `NaN`, the value of a non-numeric pitch string — maps
to the yellow gradient. -/
theorem pitchToColor_total_and_mod4 :
    (∀ p : JSNum, pitchToColor p = "url(#greenGradient)" ∨ pitchToColor p = "url(#redGradient)" ∨
      pitchToColor p = "url(#blueGradient)" ∨ pitchToColor p = "url(#yellowGradient)")
    ∧ (∀ p q : JSNum, JSNum.mod p (JSNum.num 4) = JSNum.mod q (JSNum.num 4) →
        pitchToColor p = pitchToColor q)
    ∧ (∀ p : JSNum, JSNum.mod p (JSNum.num 4) ≠ JSNum.num 0 →
        JSNum.mod p (JSNum.num 4) ≠ JSNum.num 1 → JSNum.mod p (JSNum.num 4) ≠ JSNum.num 2 →
        pitchToColor p = "url(#yellowGradient)")
    ∧ pitchToColor JSNum.nan = "url(#yellowGradient)" := by
  refine ⟨?_, ?_, ?_, ?_⟩
  · intro p; unfold pitchToColor; split_ifs <;> simp
  · intro p q h; unfold pitchToColor; rw [h]
  · intro p h0 h1 h2; simp [pitchToColor, h0, h1, h2]
  · simp [pitchToColor, JSNum.mod]
